import Mathlib

/-!
Verification of the terminal BBS server (`terminal-bbs/bbs.py`): a shallow
embedding of its account store, message board, bulletin store, presence
registry and session routines, with theorems about their behaviour.

Files on disk are modelled as in-memory values: the JSON user dictionary
becomes an association list (Python dicts preserve insertion order and new
keys are appended), the JSON message/bulletin arrays become lists, and the
module-level `ONLINE` set becomes a `Finset String`.
-/

namespace BBS

/-- A credential record, as stored in `users.json`:
`{"password": ..., "created": ...}` (timestamps are kept as strings). -/
structure UserRec where
  password : String
  created : String
  deriving Repr, DecidableEq

/-- A posted message, as stored in `messages.json`. Python key `from` is
rendered as `fromUser`. -/
structure Message where
  subject : String
  body : String
  fromUser : String
  ts : String
  deriving Repr, DecidableEq

/-- A bulletin, as stored in `bulletins.json`. -/
structure Bulletin where
  title : String
  body : String
  deriving Repr, DecidableEq

/-- The user store: a username-keyed dictionary in insertion order. -/
abbrev UserStore := List (String × UserRec)

/-- Dictionary lookup, `users.get(username)`: first binding of the key. -/
def lookup : UserStore → String → Option UserRec
  | [], _ => none
  | (k, v) :: rest, u => if k = u then some v else lookup rest u

/-- `username in users`: key membership in the dictionary. -/
def hasKey (users : UserStore) (u : String) : Bool :=
  (lookup users u).isSome

/-- `users.get(username, {}).get('password') == password` from
`Session.signin` (line 103): with the username absent the inner `get`
yields `None`, which never equals the supplied password string. -/
def verify (users : UserStore) (username password : String) : Bool :=
  match lookup users username with
  | some rec => rec.password == password
  | none => false

/-- Result of one signup attempt against the account store. -/
inductive CreateResult
  | ok (users : UserStore)
  | usernameTaken
  deriving Repr, DecidableEq

/-- The store transaction inside `Session.signup` (lines 85-91): reload the
dictionary, refuse when `username in users`, otherwise bind the new record
(Python dict assignment appends a fresh key at the end) and persist. -/
def createIfAbsent (users : UserStore) (username password ts : String) :
    CreateResult :=
  if hasKey users username then .usernameTaken
  else .ok (users ++ [(username, ⟨password, ts⟩)])

/-- Python sequence indexing `l[k]` for an `int` index: non-negative indices
count from the front, negative indices from the back (`l[k]` is `l[len+k]`
when `-len ≤ k < 0`); anything else raises `IndexError`, modelled as
`none`. -/
def pyIndex {α : Type} (l : List α) (k : Int) : Option α :=
  if 0 ≤ k then l.get? k.toNat
  else if (-k).toNat ≤ l.length then l.get? (l.length - (-k).toNat)
  else none

/-- Outcome of a read command: the rendered message, or the single generic
invalid line (`except Exception` collapses every failure to it). -/
inductive ReadResult (α : Type)
  | ok (a : α)
  | invalid
  deriving Repr, DecidableEq

/-- The read branch of `Session.message_board` (lines 140-149) at an integer
position `n`: `msgs[n-1]` under `try`, with any exception rendered as
"Invalid message number.". -/
def boardRead (msgs : List Message) (n : Int) : ReadResult Message :=
  match pyIndex msgs (n - 1) with
  | some m => .ok m
  | none => .invalid

/-- The numeric branch of `Session.bulletins` (lines 183-189): `bulls[n-1]`
under `try`, with any exception rendered as "Invalid selection.". -/
def bulletinRead (bulls : List Bulletin) (n : Int) : ReadResult Bulletin :=
  match pyIndex bulls (n - 1) with
  | some b => .ok b
  | none => .invalid

/-- The input of one post command: the subject line and the body lines typed
before the lone `"."` terminator, plus the session's username and the
timestamp taken at the append. -/
structure PostInput where
  subject : String
  lines : List String
  fromUser : String
  ts : String
  deriving Repr, DecidableEq

/-- The dictionary appended by the post branch (lines 161-166):
`subj or '(no subject)'` substitutes the placeholder exactly when the
(stripped) subject is the empty string, and the body is
`"\n".join(lines)`. -/
def renderPost (inp : PostInput) : Message :=
  { subject := if inp.subject = "" then "(no subject)" else inp.subject
    body := String.intercalate "\n" inp.lines
    fromUser := inp.fromUser
    ts := inp.ts }

/-- The post branch of `Session.message_board` (lines 150-168): load the
message list, append the new record, persist. -/
def postMessage (msgs : List Message) (inp : PostInput) : List Message :=
  msgs ++ [renderPost inp]

/-- A sequence of post commands run in order against the store. -/
def postAll (msgs : List Message) (inps : List PostInput) : List Message :=
  inps.foldl postMessage msgs

/-- Left padding of `f"{i:2d}"`: spaces to width 2, number right-aligned. -/
def padLeft (s : String) (w : Nat) : String :=
  String.mk (List.replicate (w - s.length) ' ') ++ s

/-- Right padding of `f"{x:<w}"`: value left-aligned, spaces to width `w`. -/
def padRight (s : String) (w : Nat) : String :=
  s ++ String.mk (List.replicate (w - s.length) ' ')

/-- One row of the list branch (line 138):
`f"{i:2d} {m['ts'][:19]:<20} {m['from'][:10]:<10} {m['subject']}"`. -/
def listLine (i : Nat) (m : Message) : String :=
  padLeft (toString i) 2 ++ " " ++ padRight (m.ts.take 19) 20 ++ " " ++
    padRight (m.fromUser.take 10) 10 ++ " " ++ m.subject

/-- The module-level `ONLINE` presence registry: a Python `set` of
usernames. -/
abbrev Presence := Finset String

/-- `ONLINE.add(username)` (lines 93 and 105). -/
def onlineAdd (online : Presence) (u : String) : Presence :=
  insert u online

/-- The guarded removal `if u in ONLINE: ONLINE.remove(u)` used by both
`Session.logoff` (lines 200-201) and the `handle_client` cleanup
(lines 235-236): removes the entry when present, does nothing otherwise,
and never raises. -/
def onlineRemove (online : Presence) (u : String) : Presence :=
  if u ∈ online then online.erase u else online

/-- The cleanup in `handle_client`'s `finally` block: `s.username` is still
`None` when the session never authenticated, and `None in ONLINE` is
false, so nothing is removed then. -/
def cleanupRemove (online : Presence) (username : Option String) : Presence :=
  match username with
  | some u => onlineRemove online u
  | none => online

/-- `Session.whos_online` (lines 191-196): the empty set prints a dedicated
line, otherwise the members are sorted ascending and comma-joined. -/
def whosOnline (online : Presence) : String :=
  if online = ∅ then "No one online.\n"
  else "Online: " ++ String.intercalate ", " (online.sort (· ≤ ·)) ++ "\n"

/-- The mutable state a session can observe: the account store, the message
store and the shared presence registry (the bulletin store is read-only
for sessions and kept separately). -/
structure SysState where
  users : UserStore
  messages : List Message
  online : Presence
  deriving DecidableEq

/-- Outcome of `Session.signin`: authenticated as `username`, locked out
after three failures ("Too many attempts. Bye.", connection closed), or
still waiting on the client for the next attempt. -/
inductive SigninResult
  | success (username : String)
  | lockout
  | pending
  deriving Repr, DecidableEq

/-- The `for _ in range(3)` loop of `Session.signin` (lines 99-111), with
`fuel` iterations left and the client's future (username, password)
answers as a list: each iteration reloads the users file, verifies, and on
success sets `self.username`, adds the name to `ONLINE` and returns; a
failure prints "Invalid credentials." and continues; an exhausted loop
closes the connection. The store is never written. -/
def signinGo (σ : SysState) : Nat → List (String × String) → SigninResult × SysState
  | 0, _ => (.lockout, σ)
  | _ + 1, [] => (.pending, σ)
  | fuel + 1, (u, p) :: rest =>
      if verify σ.users u p then
        (.success u, { σ with online := onlineAdd σ.online u })
      else
        signinGo σ fuel rest

/-- `Session.signin` run against the client's attempt list. -/
def signinOp (σ : SysState) (attempts : List (String × String)) :
    SigninResult × SysState :=
  signinGo σ 3 attempts

/-- A successful pass through the body of `Session.signup` (lines 85-94)
for a fresh username: insert and persist the record, set `self.username`,
register presence. Only called when `createIfAbsent` returns `ok`. -/
def signupApply (σ : SysState) (username password ts : String) : SysState :=
  match createIfAbsent σ.users username password ts with
  | .ok users2 => { σ with users := users2, online := onlineAdd σ.online username }
  | .usernameTaken => σ

/-- `Session.logoff` (lines 198-203): guarded presence removal, then close. -/
def logoffApply (σ : SysState) (username : String) : SysState :=
  { σ with online := onlineRemove σ.online username }

/-- The three data files as they exist on disk; `none` means the file is
absent. -/
structure Stores where
  users : Option UserStore
  messages : Option (List Message)
  bulletins : Option (List Bulletin)
  deriving DecidableEq

/-- The default bulletins written by `ensure_data` (lines 44-49). -/
def seedBulletins : List Bulletin :=
  [⟨"Welcome to Goose Retro BBS", "This is a tiny local BBS. Have fun!"⟩,
   ⟨"Tips", "Use netcat: nc localhost 2323"⟩]

/-- `ensure_data` (lines 36-49): each missing file is created with its
default content ({} for users, [] for messages, the seed list for
bulletins); an existing file is left untouched. -/
def ensureData (st : Stores) : Stores :=
  { users := match st.users with
      | none => some []
      | some us => some us
    messages := match st.messages with
      | none => some []
      | some ms => some ms
    bulletins := match st.bulletins with
      | none => some seedBulletins
      | some bs => some bs }

/-- `load_bulletins` (lines 222-224): a pure read of the bulletins file; it
returns the list and leaves the disk state unchanged. `none` when the
file is absent (Python would raise `FileNotFoundError`). -/
def loadBulletins (st : Stores) : Option (List Bulletin) × Stores :=
  (st.bulletins, st)

/-- Python whitespace as stripped by `str.strip()` (the ASCII cases). -/
def isPySpace (c : Char) : Bool :=
  c = ' ' || c = '\t' || c = '\n' || c = '\r' || c = '\x0B' || c = '\x0C'

/-- `str.strip()`: drop leading and trailing whitespace. -/
def pyStrip (s : String) : String :=
  String.mk (((s.toList.dropWhile isPySpace).reverse.dropWhile isPySpace).reverse)

/-- `str.lower()` on one character (the ASCII case). -/
def pyLowerChar (c : Char) : Char :=
  if 'A' ≤ c ∧ c ≤ 'Z' then Char.ofNat (c.toNat + 32) else c

/-- `str.lower()`. -/
def pyLower (s : String) : String :=
  String.mk (s.toList.map pyLowerChar)

/-- `Session.getline` (lines 64-68): the decoded input line with surrounding
whitespace stripped. -/
def getline (raw : String) : String :=
  pyStrip raw

/-- `str.startswith('n')` for the single-character needle: true exactly when
the first character is `'n'`. -/
def startswithN (s : String) : Bool :=
  match s.toList with
  | [] => false
  | c :: _ => c = 'n'

/-- Where the account prompt sends the client next. -/
inductive Route
  | signup
  | signin
  deriving Repr, DecidableEq

/-- `Session.login` (lines 70-77): the reply is read via `getline`, lowered,
and routed to signup exactly when it starts with `'n'`; every other
reply — the empty string included — falls to signin. -/
def loginRoute (raw : String) : Route :=
  if startswithN (pyLower (getline raw)) then .signup else .signin

/-! ## Helper lemmas -/

theorem lookup_nil (u : String) : lookup [] u = none := rfl

theorem lookup_cons (k : String) (v : UserRec) (tl : UserStore) (u : String) :
    lookup ((k, v) :: tl) u = if k = u then some v else lookup tl u := rfl

theorem lookup_append_fresh (users : UserStore) (u : String) (r : UserRec)
    (h : lookup users u = none) : lookup (users ++ [(u, r)]) u = some r := by
  induction users with
  | nil => simp [lookup]
  | cons hd tl ih =>
    obtain ⟨k, v⟩ := hd
    rw [lookup_cons] at h
    by_cases hku : k = u
    · simp [hku] at h
    · rw [if_neg hku] at h
      simpa [lookup_cons, hku] using ih h

/-! ## C4: credential verification is exact match on both fields -/

/-- C4. In a store with unique usernames (the invariant of a dictionary),
`verify` succeeds exactly when the store holds a record whose username
equals the supplied username and whose password equals the supplied
password, both compared as exact case-sensitive strings; any mismatch in
either field fails. -/
theorem verify_exact_match (users : UserStore) (u p : String)
    (hnd : (users.map Prod.fst).Nodup) :
    verify users u p = true ↔ ∃ created, (u, UserRec.mk p created) ∈ users := by
  induction users with
  | nil => simp [verify, lookup]
  | cons hd tl ih =>
    obtain ⟨k, v⟩ := hd
    simp only [List.map_cons, List.nodup_cons] at hnd
    obtain ⟨hk, htl⟩ := hnd
    by_cases hku : k = u
    · subst hku
      simp only [verify, lookup_cons, if_pos rfl]
      constructor
      · intro h
        have hp : v.password = p := by simpa using h
        refine ⟨v.created, ?_⟩
        have hv : UserRec.mk p v.created = v := by
          cases v
          simp_all
        rw [hv]
        exact List.mem_cons_self _ _
      · rintro ⟨c, hc⟩
        rcases List.mem_cons.mp hc with h1 | h2
        · have hv : v = UserRec.mk p c := (congrArg Prod.snd h1).symm
          simp [hv]
        · exact absurd (List.mem_map_of_mem Prod.fst h2) hk
    · have : verify ((k, v) :: tl) u p = verify tl u p := by
        simp [verify, lookup_cons, hku]
      rw [this, ih htl]
      constructor
      · rintro ⟨c, hc⟩
        exact ⟨c, List.mem_cons_of_mem _ hc⟩
      · rintro ⟨c, hc⟩
        rcases List.mem_cons.mp hc with h1 | h2
        · exact absurd (congrArg Prod.fst h1).symm hku
        · exact ⟨c, h2⟩

/-- A concrete one-user store used to instantiate hypotheses. -/
def demoUsers : UserStore := [("alice", ⟨"pw1", "2025-01-01T00:00:00"⟩)]

/-- Witness for `verify_exact_match` at the concrete store `demoUsers`. -/
theorem verify_exact_match_witness :
    verify demoUsers "alice" "pw1" = true ↔
      ∃ created, ("alice", UserRec.mk "pw1" created) ∈ demoUsers :=
  verify_exact_match demoUsers "alice" "pw1" (by decide)

/-! ## C5: account creation succeeds exactly once per fresh username -/

/-- C5. For a username absent from the store, `createIfAbsent` succeeds,
appending a record with the supplied password and timestamp; a repeat
call with the same username on the resulting store fails with
`UsernameTaken`; and whenever the (case-sensitive, exact) existence check
finds the username, the signup step leaves the whole system state
unchanged. -/
theorem createIfAbsent_exactly_once (users : UserStore) (u p ts : String)
    (habs : lookup users u = none) :
    createIfAbsent users u p ts = .ok (users ++ [(u, UserRec.mk p ts)])
    ∧ (∀ p2 ts2, createIfAbsent (users ++ [(u, UserRec.mk p ts)]) u p2 ts2
        = .usernameTaken)
    ∧ (∀ (σ : SysState) (p3 ts3 : String), hasKey σ.users u = true →
        signupApply σ u p3 ts3 = σ) := by
  refine ⟨?_, ?_, ?_⟩
  · simp [createIfAbsent, hasKey, habs]
  · intro p2 ts2
    simp [createIfAbsent, hasKey, lookup_append_fresh users u _ habs]
  · intro σ p3 ts3 htaken
    simp [signupApply, createIfAbsent, htaken]

/-- Witness for `createIfAbsent_exactly_once`: creating "bob" in the empty
store succeeds, and repeating it is refused. -/
theorem createIfAbsent_exactly_once_witness :
    createIfAbsent [] "bob" "pw" "t0" = .ok [("bob", UserRec.mk "pw" "t0")]
    ∧ (∀ p2 ts2, createIfAbsent [("bob", UserRec.mk "pw" "t0")] "bob" p2 ts2
        = .usernameTaken)
    ∧ (∀ (σ : SysState) (p3 ts3 : String), hasKey σ.users "bob" = true →
        signupApply σ "bob" p3 ts3 = σ) := by
  have h := createIfAbsent_exactly_once [] "bob" "pw" "t0" rfl
  simpa using h

/-! ## C10: routing at the account prompt -/

/-- C10. A reply routes to signup exactly when its whitespace-stripped,
lowercased form begins with `'n'`; every other reply, the empty string
included, routes to signin (the prompt never re-asks). -/
theorem login_route_startswith_n (raw : String) :
    (loginRoute raw = .signup ↔ (pyLower (pyStrip raw)).toList.head? = some 'n')
    ∧ loginRoute "" = .signin := by
  constructor
  · unfold loginRoute startswithN getline
    cases h : (pyLower (pyStrip raw)).toList with
    | nil => simp [h]
    | cons c rest =>
      by_cases hc : c = 'n' <;> simp [h, hc]
  · rfl

/-! ## C7: subject placeholder and body joining on post -/

/-- C7. The stored message's body is the input lines joined with newlines;
an empty subject line is stored as the literal "(no subject)" and that
placeholder is what the listing row ends with; a non-empty subject is
stored verbatim. -/
theorem post_subject_placeholder (inp : PostInput) (i : Nat) :
    (renderPost inp).body = String.intercalate "\n" inp.lines
    ∧ (inp.subject = "" → (renderPost inp).subject = "(no subject)"
        ∧ ∃ pre, listLine i (renderPost inp) = pre ++ "(no subject)")
    ∧ (inp.subject ≠ "" → (renderPost inp).subject = inp.subject) := by
  refine ⟨rfl, ?_, ?_⟩
  · intro hempty
    refine ⟨by simp [renderPost, hempty], ?_⟩
    refine ⟨padLeft (toString i) 2 ++ " " ++
      padRight ((renderPost inp).ts.take 19) 20 ++ " " ++
      padRight ((renderPost inp).fromUser.take 10) 10 ++ " ", ?_⟩
    simp [listLine, renderPost, hempty, String.append_assoc]
  · intro hne
    simp [renderPost, hne]

/-- Witness for `post_subject_placeholder` at a concrete empty-subject
post. -/
theorem post_subject_placeholder_witness :
    (renderPost ⟨"", ["line1"], "alice", "t"⟩).body = String.intercalate "\n" ["line1"]
    ∧ (renderPost ⟨"", ["line1"], "alice", "t"⟩).subject = "(no subject)"
    ∧ ∃ pre, listLine 1 (renderPost ⟨"", ["line1"], "alice", "t"⟩)
        = pre ++ "(no subject)" := by
  have h := post_subject_placeholder ⟨"", ["line1"], "alice", "t"⟩ 1
  exact ⟨h.1, (h.2.1 rfl).1, (h.2.1 rfl).2⟩

/-! ## C9: bulletin seeding happens once, reads are pure -/

/-- C9. With no bulletin file, bootstrap writes the seed list (which has at
least one entry); with an existing file it re-seeds nothing; and loading
bulletins leaves the stores untouched, so repeated loads with no writes
in between return the same list. -/
theorem bulletin_seed_once (st : Stores) :
    (st.bulletins = none →
      (ensureData st).bulletins = some seedBulletins ∧ 1 ≤ seedBulletins.length)
    ∧ (∀ bs, st.bulletins = some bs → (ensureData st).bulletins = some bs)
    ∧ (∀ st2 : Stores, (loadBulletins st2).2 = st2
        ∧ (loadBulletins st2).1 = (loadBulletins (loadBulletins st2).2).1) := by
  refine ⟨?_, ?_, ?_⟩
  · intro h
    refine ⟨?_, by decide⟩
    simp [ensureData, h]
  · intro bs h
    simp [ensureData, h]
  · intro st2
    exact ⟨rfl, rfl⟩

/-- Witness for `bulletin_seed_once` on the first-run state with all files
absent. -/
theorem bulletin_seed_once_witness :
    (ensureData ⟨none, none, none⟩).bulletins = some seedBulletins
    ∧ 1 ≤ seedBulletins.length
    ∧ (ensureData ⟨some [], some [], some [⟨"a", "b"⟩]⟩).bulletins
        = some [⟨"a", "b"⟩] := by
  have h := bulletin_seed_once ⟨none, none, none⟩
  have h2 := bulletin_seed_once ⟨some [], some [], some [⟨"a", "b"⟩]⟩
  exact ⟨(h.1 rfl).1, (h.1 rfl).2, h2.2.1 _ rfl⟩

/-! ## C8: the presence registry is a set, displayed sorted -/

theorem onlineRemove_eq_erase (s : Presence) (u : String) :
    onlineRemove s u = s.erase u := by
  unfold onlineRemove
  by_cases h : u ∈ s
  · rw [if_pos h]
  · rw [if_neg h, Finset.erase_eq_of_not_mem h]

/-- C8. Adding an already-online username changes nothing (double login does
not duplicate), one removal deletes the entry whatever else is online,
the empty registry prints its dedicated line, and a non-empty registry
prints exactly its members, comma-joined in ascending order. -/
theorem presence_set_and_display (online : Presence) (u : String) :
    onlineAdd (onlineAdd online u) u = onlineAdd online u
    ∧ u ∉ onlineRemove online u
    ∧ whosOnline ∅ = "No one online.\n"
    ∧ (online ≠ ∅ →
        whosOnline online
          = "Online: " ++ String.intercalate ", " (online.sort (· ≤ ·)) ++ "\n"
        ∧ List.Sorted (· ≤ ·) (online.sort (· ≤ ·))
        ∧ ∀ v, v ∈ online.sort (· ≤ ·) ↔ v ∈ online) := by
  refine ⟨Finset.insert_idem u online, ?_, rfl, ?_⟩
  · rw [onlineRemove_eq_erase]
    exact Finset.not_mem_erase u online
  · intro hne
    refine ⟨by simp [whosOnline, hne], Finset.sort_sorted _ _, ?_⟩
    intro v
    exact Finset.mem_sort _

/-- Witness for `presence_set_and_display` on a concrete two-user
registry. -/
theorem presence_set_and_display_witness :
    whosOnline {"alice"} = "Online: alice\n" := by
  have h := presence_set_and_display ({"alice"} : Presence) "alice"
  have h2 := (h.2.2.2 (by simp)).1
  rw [h2, Finset.sort_singleton]
  rfl

/-! ## C2: presence across signin/signup, logoff and cleanup -/

theorem signinGo_success_state (σ : SysState) :
    ∀ (fuel : Nat) (attempts : List (String × String)) (u : String)
      (σ2 : SysState), signinGo σ fuel attempts = (.success u, σ2) →
      σ2 = { σ with online := onlineAdd σ.online u } := by
  intro fuel
  induction fuel with
  | zero => intro attempts u σ2 h; simp [signinGo] at h
  | succ k ih =>
    intro attempts u σ2 h
    cases attempts with
    | nil => simp [signinGo] at h
    | cons a rest =>
      obtain ⟨ua, pa⟩ := a
      rw [signinGo] at h
      by_cases hv : verify σ.users ua pa
      · rw [if_pos hv] at h
        obtain ⟨h1, h2⟩ := Prod.mk.injEq .. ▸ h
        cases h1
        exact h2.symm ▸ rfl
      · rw [if_neg hv] at h
        exact ih rest u σ2 h

/-- C2. After a successful signup the username is in the registry; after a
successful signin it is in the registry; after logoff it is absent;
running the cleanup removal after the logoff removal changes nothing
(idempotent), and cleanup for a never-authenticated session (username
still unset) is a no-op. -/
theorem presence_lifecycle (σ σ2 : SysState) (u p ts : String)
    (attempts : List (String × String)) :
    (lookup σ.users u = none → u ∈ (signupApply σ u p ts).online)
    ∧ (signinOp σ attempts = (.success u, σ2) → u ∈ σ2.online)
    ∧ u ∉ (logoffApply σ u).online
    ∧ cleanupRemove (logoffApply σ u).online (some u) = (logoffApply σ u).online
    ∧ onlineRemove (onlineRemove σ.online u) u = onlineRemove σ.online u
    ∧ cleanupRemove σ.online none = σ.online := by
  refine ⟨?_, ?_, ?_, ?_, ?_, rfl⟩
  · intro habs
    simp [signupApply, createIfAbsent, hasKey, habs, onlineAdd]
  · intro h
    have := signinGo_success_state σ 3 attempts u σ2 h
    subst this
    simp [onlineAdd]
  · simp [logoffApply, onlineRemove_eq_erase]
  · simp [cleanupRemove, logoffApply, onlineRemove_eq_erase, Finset.erase_idem]
  · simp [onlineRemove_eq_erase, Finset.erase_idem]

/-- A concrete system state: one stored user, nobody online. -/
def demoState : SysState := ⟨demoUsers, [], ∅⟩

/-- Witness for `presence_lifecycle` at concrete states: signup and signin
both register presence, logoff removes it. -/
theorem presence_lifecycle_witness :
    "bob" ∈ (signupApply demoState "bob" "pw" "t0").online
    ∧ "alice" ∈ ({ demoState with online := {"alice"} } : SysState).online
    ∧ "alice" ∉ (logoffApply { demoState with online := {"alice"} } "alice").online := by
  have h1 := (presence_lifecycle demoState demoState "bob" "pw" "t0" []).1 rfl
  have h2 := presence_lifecycle { demoState with online := ({"alice"} : Presence) }
    { demoState with online := insert "alice" ({"alice"} : Presence) }
    "alice" "pw1" "t0" [("alice", "pw1")]
  refine ⟨h1, by simp, h2.2.2.1⟩

/-! ## C3: the signin loop runs at most 3 attempts -/

theorem signinGo_take (σ : SysState) :
    ∀ (fuel : Nat) (attempts : List (String × String)),
      signinGo σ fuel attempts = signinGo σ fuel (attempts.take fuel) := by
  intro fuel
  induction fuel with
  | zero => intro attempts; rfl
  | succ k ih =>
    intro attempts
    cases attempts with
    | nil => rfl
    | cons a rest =>
      obtain ⟨ua, pa⟩ := a
      rw [List.take_succ_cons, signinGo, signinGo]
      by_cases hv : verify σ.users ua pa
      · rw [if_pos hv, if_pos hv]
      · rw [if_neg hv, if_neg hv, ih rest]

/-- C3. The signin loop consumes at most the first 3 client attempts; the
first verifying attempt among them succeeds, setting the session user and
registering presence while leaving every store untouched; and when all
three attempts fail, the session is closed with a lockout result and the
whole state — the account store included — is exactly what it was, so no
lockout is persisted. -/
theorem signin_three_attempts (σ : SysState) (a b c : String × String)
    (rest attempts : List (String × String)) :
    signinOp σ attempts = signinOp σ (attempts.take 3)
    ∧ (verify σ.users a.1 a.2 = true →
        signinOp σ (a :: rest)
          = (.success a.1, { σ with online := onlineAdd σ.online a.1 }))
    ∧ (verify σ.users a.1 a.2 = false → verify σ.users b.1 b.2 = true →
        signinOp σ (a :: b :: rest)
          = (.success b.1, { σ with online := onlineAdd σ.online b.1 }))
    ∧ (verify σ.users a.1 a.2 = false → verify σ.users b.1 b.2 = false →
        verify σ.users c.1 c.2 = true →
        signinOp σ (a :: b :: c :: rest)
          = (.success c.1, { σ with online := onlineAdd σ.online c.1 }))
    ∧ (verify σ.users a.1 a.2 = false → verify σ.users b.1 b.2 = false →
        verify σ.users c.1 c.2 = false →
        signinOp σ (a :: b :: c :: rest) = (.lockout, σ)) := by
  obtain ⟨ua, pa⟩ := a
  obtain ⟨ub, pb⟩ := b
  obtain ⟨uc, pc⟩ := c
  refine ⟨signinGo_take σ 3 attempts, ?_, ?_, ?_, ?_⟩
  · intro h1
    simp [signinOp, signinGo, h1]
  · intro h1 h2
    simp [signinOp, signinGo, h1, h2]
  · intro h1 h2 h3
    simp [signinOp, signinGo, h1, h2, h3]
  · intro h1 h2 h3
    simp [signinOp, signinGo, h1, h2, h3]

/-- Witness for `signin_three_attempts` at the concrete one-user store:
a bad attempt followed by a good one succeeds on attempt two, and three
bad attempts lock the session out with the state unchanged. -/
theorem signin_three_attempts_witness :
    signinOp demoState [("alice", "wrong"), ("alice", "pw1")]
      = (.success "alice", { demoState with online := onlineAdd demoState.online "alice" })
    ∧ signinOp demoState [("alice", "no"), ("bob", "pw1"), ("alice", "PW1")]
      = (.lockout, demoState) := by
  have h1 := (signin_three_attempts demoState ("alice", "wrong") ("alice", "pw1")
    ("alice", "pw1") [] []).2.2.1 (by decide) (by decide)
  have h2 := (signin_three_attempts demoState ("alice", "no") ("bob", "pw1")
    ("alice", "PW1") [] []).2.2.2.2 (by decide) (by decide) (by decide)
  exact ⟨h1, h2⟩

/-! ## C6: the message board is append-only -/

theorem postAll_length (inps : List PostInput) :
    ∀ msgs : List Message, (postAll msgs inps).length = msgs.length + inps.length := by
  induction inps with
  | nil => intro msgs; simp [postAll]
  | cons hd tl ih =>
    intro msgs
    have := ih (postMessage msgs hd)
    simp only [postAll, List.foldl_cons] at this ⊢
    rw [this]
    simp [postMessage]
    omega

theorem postAll_concat (msgs : List Message) (inps : List PostInput)
    (inp : PostInput) :
    postAll msgs (inps ++ [inp]) = postAll msgs inps ++ [renderPost inp] := by
  simp [postAll, List.foldl_append, postMessage]

/-- C6. Each post appends exactly one rendered message after the existing
ones (so nothing is removed or reordered); starting from the empty store,
N posts leave exactly N messages in insertion order; and reading position
N after the N-th post returns that most recent post. -/
theorem message_board_append_only (msgs : List Message) (inp : PostInput)
    (inps : List PostInput) :
    postMessage msgs inp = msgs ++ [renderPost inp]
    ∧ (postAll [] inps).length = inps.length
    ∧ boardRead (postAll [] (inps ++ [inp])) ((inps.length : Int) + 1)
        = .ok (renderPost inp) := by
  have hlen : (postAll [] inps).length = inps.length := by
    simpa using postAll_length inps []
  refine ⟨rfl, hlen, ?_⟩
  rw [postAll_concat]
  unfold boardRead pyIndex
  have h0 : (0 : Int) ≤ (inps.length : Int) + 1 - 1 := by omega
  rw [if_pos h0]
  have ht : ((inps.length : Int) + 1 - 1).toNat = (postAll [] inps).length := by
    rw [hlen]
    omega
  rw [ht, List.get?_concat_length]

/-! ## C1: read positions, Python indexing included

The claim says every integer position outside `[1, N]` — position 0
included — fails. The code computes `msgs[n-1]`, and Python indexing
accepts negative indices: position 0 becomes index `-1`, the LAST stored
element, so positions in `[1-N, 0]` succeed instead of failing. -/

theorem pyIndex_in_range {α : Type} (l : List α) (k : Int) (h0 : 0 ≤ k)
    (hk : k < l.length) : ∃ a, l.get? k.toNat = some a ∧ pyIndex l k = some a := by
  have hlt : k.toNat < l.length := by omega
  refine ⟨l.get ⟨k.toNat, hlt⟩, List.get?_eq_get hlt, ?_⟩
  unfold pyIndex
  rw [if_pos h0, List.get?_eq_get hlt]

theorem pyIndex_neg_range {α : Type} (l : List α) (k : Int)
    (h1 : -(l.length : Int) ≤ k) (h2 : k < 0) :
    ∃ a, l.get? ((l.length : Int) + k).toNat = some a ∧ pyIndex l k = some a := by
  have hlt : ((l.length : Int) + k).toNat < l.length := by omega
  have hidx : l.length - (-k).toNat = ((l.length : Int) + k).toNat := by omega
  refine ⟨l.get ⟨((l.length : Int) + k).toNat, hlt⟩, List.get?_eq_get hlt, ?_⟩
  unfold pyIndex
  rw [if_neg (by omega), if_pos (by omega : (-k).toNat ≤ l.length), hidx,
    List.get?_eq_get hlt]

theorem pyIndex_oob {α : Type} (l : List α) (k : Int)
    (h : k < -(l.length : Int) ∨ (l.length : Int) ≤ k) : pyIndex l k = none := by
  unfold pyIndex
  rcases h with h | h
  · rw [if_neg (by omega), if_neg (by omega)]
  · rw [if_pos (by omega)]
    exact List.get?_eq_none.mpr (by omega)

/-- C1 counterexample: with one stored message, read position 0 — outside
`[1, N]` — returns that message instead of the generic invalid line, and
likewise bulletin position 0 returns the last seeded bulletin. -/
theorem read_position_zero_not_invalid :
    boardRead [Message.mk "hi" "line1" "alice" "t"] 0
      = .ok (Message.mk "hi" "line1" "alice" "t")
    ∧ bulletinRead seedBulletins 0
      = .ok ⟨"Tips", "Use netcat: nc localhost 2323"⟩ := by
  decide

/-- C1 amended. Board read at integer position `n` returns Ok of the
`n`-th message (1-based) when `1 ≤ n ≤ N`; for `1-N ≤ n ≤ 0` Python's
negative indexing makes it return Ok of the message at offset `N+n-1`
(position 0 is the most recent message); only positions with `n > N` or
`n < 1-N` fail with the single generic invalid line. Bulletin read has
the same semantics over the bulletin list. -/
theorem read_position_semantics (msgs : List Message) (bulls : List Bulletin)
    (n : Int) :
    (1 ≤ n → n ≤ msgs.length →
      ∃ m, msgs.get? (n - 1).toNat = some m ∧ boardRead msgs n = .ok m)
    ∧ (1 - msgs.length ≤ n → n ≤ 0 →
      ∃ m, msgs.get? ((msgs.length : Int) + n - 1).toNat = some m
        ∧ boardRead msgs n = .ok m)
    ∧ ((n < 1 - (msgs.length : Int) ∨ (msgs.length : Int) < n) →
        boardRead msgs n = .invalid)
    ∧ (1 ≤ n → n ≤ bulls.length →
      ∃ b, bulls.get? (n - 1).toNat = some b ∧ bulletinRead bulls n = .ok b)
    ∧ (1 - bulls.length ≤ n → n ≤ 0 →
      ∃ b, bulls.get? ((bulls.length : Int) + n - 1).toNat = some b
        ∧ bulletinRead bulls n = .ok b)
    ∧ ((n < 1 - (bulls.length : Int) ∨ (bulls.length : Int) < n) →
        bulletinRead bulls n = .invalid) := by
  refine ⟨?_, ?_, ?_, ?_, ?_, ?_⟩
  · intro h1 h2
    obtain ⟨m, hg, hp⟩ := pyIndex_in_range msgs (n - 1) (by omega) (by omega)
    exact ⟨m, hg, by simp [boardRead, hp]⟩
  · intro h1 h2
    obtain ⟨m, hg, hp⟩ := pyIndex_neg_range msgs (n - 1) (by omega) (by omega)
    refine ⟨m, ?_, by simp [boardRead, hp]⟩
    have : (msgs.length : Int) + (n - 1) = (msgs.length : Int) + n - 1 := by omega
    rwa [this] at hg
  · intro h
    have : pyIndex msgs (n - 1) = none := pyIndex_oob msgs (n - 1) (by omega)
    simp [boardRead, this]
  · intro h1 h2
    obtain ⟨b, hg, hp⟩ := pyIndex_in_range bulls (n - 1) (by omega) (by omega)
    exact ⟨b, hg, by simp [bulletinRead, hp]⟩
  · intro h1 h2
    obtain ⟨b, hg, hp⟩ := pyIndex_neg_range bulls (n - 1) (by omega) (by omega)
    refine ⟨b, ?_, by simp [bulletinRead, hp]⟩
    have : (bulls.length : Int) + (n - 1) = (bulls.length : Int) + n - 1 := by omega
    rwa [this] at hg
  · intro h
    have : pyIndex bulls (n - 1) = none := pyIndex_oob bulls (n - 1) (by omega)
    simp [bulletinRead, this]

/-- Witness for `read_position_semantics` at a concrete one-message store:
position 1 is served, position 2 and position -1 are invalid. -/
theorem read_position_semantics_witness :
    boardRead [Message.mk "hi" "line1" "alice" "t"] 1
      = .ok (Message.mk "hi" "line1" "alice" "t")
    ∧ boardRead [Message.mk "hi" "line1" "alice" "t"] 2 = .invalid
    ∧ bulletinRead seedBulletins 5 = .invalid := by
  refine ⟨?_, ?_, ?_⟩
  · obtain ⟨m, hg, hp⟩ :=
      (read_position_semantics [Message.mk "hi" "line1" "alice" "t"]
        seedBulletins 1).1 (by norm_num) (by norm_num)
    have hm : Message.mk "hi" "line1" "alice" "t" = m := by simpa using hg
    rw [← hm] at hp
    exact hp
  · exact (read_position_semantics [Message.mk "hi" "line1" "alice" "t"]
      seedBulletins 2).2.2.1 (Or.inr (by norm_num))
  · exact (read_position_semantics [Message.mk "hi" "line1" "alice" "t"]
      seedBulletins 5).2.2.2.2.2 (Or.inr (by norm_num [seedBulletins]))

end BBS
